import Mathlib

/-!
Shallow embedding of the RAG engine of the Bridge Agent repository
(src/services/vectorService.ts, src/services/ragService.ts,
src/services/aiService.ts), together with theorems settling the claims
about its specification.

Strings manipulated character-by-character by the source (the chunker) are
modelled as `List Char`; JavaScript numbers are modelled as real numbers
(`ℝ`) where the source computes with `Math.sin`/`Math.sqrt`, and the
score-carrying service layer is parametrised over a linear ordered field so
that the same definitions cover both the real-valued instantiation and
computable rational test instances.
-/

namespace BridgeAgent

/-! ### Chunker — `vectorService.ts`, `splitTextIntoChunks` (lines 325–367)

The source splits first on the paragraph regex `/\n\s*\n/`, then (for an
over-long first paragraph) on the sentence-delimiter class `[。！？.!?]`.
-/

/-- JavaScript `\s` membership, restricted to the ASCII whitespace characters
that can occur in the inputs considered here (the source's regex `\n\s*\n`). -/
def isWS (c : Char) : Bool :=
  c == ' ' || c == '\n' || c == '\t' || c == '\r' || c == '\x0b' || c == '\x0c'

/-- The sentence-delimiter class `[。！？.!?]` of `splitTextIntoChunks`. -/
def isSentenceDelim (c : Char) : Bool :=
  c == '。' || c == '！' || c == '？' || c == '.' || c == '!' || c == '?'

/-- JavaScript `String.prototype.trim`: drop whitespace at both ends. -/
def jsTrim (l : List Char) : List Char :=
  ((l.dropWhile isWS).reverse.dropWhile isWS).reverse

/-- Scan the leading whitespace run of `l` and return the suffix after the
last `'\n'` in that run (the greedy-with-backtracking behaviour of the
`\s*\n` tail of the regex `/\n\s*\n/`); `none` if the run has no `'\n'`. -/
def sepTail : List Char → Option (List Char)
  | [] => none
  | c :: rest =>
    if isWS c then
      match sepTail rest with
      | some r => some r
      | none => if c == '\n' then some rest else none
    else none

/-- Try to match the paragraph separator regex `/\n\s*\n/` at the head of the
list; on success return the remainder of the input after the match. -/
def paraSep : List Char → Option (List Char)
  | [] => none
  | c :: rest => if c == '\n' then sepTail rest else none

/-- Fuelled scanner implementing `text.split(/\n\s*\n/)`: at each position
either the separator matches (ending the current paragraph) or one character
is consumed into the current paragraph. Fuel `length + 1` is always enough. -/
def splitParasGo : Nat → List Char → List (List Char)
  | 0, s => [s]
  | fuel + 1, s =>
    match s with
    | [] => [[]]
    | c :: rest =>
      match paraSep (c :: rest) with
      | some r => [] :: splitParasGo fuel r
      | none =>
        match splitParasGo fuel rest with
        | p :: ps => (c :: p) :: ps
        | [] => [[c]]

/-- `text.split(/\n\s*\n/)` of `splitTextIntoChunks` (line 329). -/
def splitParas (s : List Char) : List (List Char) :=
  splitParasGo (s.length + 1) s

/-- `paragraph.split(/[。！？.!?]/)` of `splitTextIntoChunks` (line 341):
split on the delimiter class, dropping the delimiters, keeping empties. -/
def splitSentences : List Char → List (List Char)
  | [] => [[]]
  | c :: rest =>
    if isSentenceDelim c then [] :: splitSentences rest
    else
      match splitSentences rest with
      | p :: ps => (c :: p) :: ps
      | [] => [[c]]

/-- One iteration of the inner sentence loop of `splitTextIntoChunks`
(lines 344–353); state is `(chunks, sentenceChunk)`. -/
def sentenceStep (maxChunkSize : Nat) (st : List (List Char) × List Char)
    (sentence : List Char) : List (List Char) × List Char :=
  if st.2.length + sentence.length ≤ maxChunkSize then (st.1, st.2 ++ sentence)
  else ((if st.2 ≠ [] then st.1 ++ [jsTrim st.2] else st.1), sentence)

/-- One iteration of the outer paragraph loop of `splitTextIntoChunks`
(lines 332–360); state is `(chunks, currentChunk)`. -/
def paragraphStep (maxChunkSize : Nat) (st : List (List Char) × List Char)
    (paragraph : List Char) : List (List Char) × List Char :=
  let chunks := st.1
  let current := st.2
  if current.length + paragraph.length ≤ maxChunkSize then
    (chunks, current ++ (if current ≠ [] then ['\n', '\n'] else []) ++ paragraph)
  else if current ≠ [] then
    (chunks ++ [jsTrim current], paragraph)
  else
    (splitSentences paragraph).foldl (sentenceStep maxChunkSize) (chunks, [])

/-- `VectorService.splitTextIntoChunks` (vectorService.ts lines 325–367). -/
def splitTextIntoChunks (text : List Char) (maxChunkSize : Nat) : List (List Char) :=
  let st := (splitParas text).foldl (paragraphStep maxChunkSize) ([], [])
  let chunks := if st.2 ≠ [] then st.1 ++ [jsTrim st.2] else st.1
  chunks.filter (fun chunk => chunk.length > 0)

/-! ### Embeddings — `vectorService.ts` lines 104–129 and 549–572

JavaScript numbers are modelled as real numbers; `simpleHash` is exact
integer arithmetic in the source (all intermediates fit a double), with
`hash & hash` / `<< 5` performing 32-bit two's-complement wrapping. -/

/-- Two's-complement wrap to a signed 32-bit integer (JS `ToInt32`). -/
def toInt32 (n : Int) : Int := ((n + 2 ^ 31) % 2 ^ 32) - 2 ^ 31

/-- `VectorService.simpleHash` (lines 121–129): `hash = ((hash << 5) - hash)
+ charCode; hash = hash & hash`. Characters here are BMP code points, where
`charCodeAt` agrees with the code point. -/
def simpleHash (s : String) : Int :=
  s.toList.foldl (fun hash c => toInt32 (toInt32 (hash * 32) - hash + c.toNat)) 0

/-- The `reduce((sum, val) => sum + val * val, 0)` accumulator of
`generateMockEmbedding` (line 117). -/
def sumSquares (l : List ℝ) : ℝ := l.foldl (fun sum val => sum + val * val) 0

/-- `VectorService.generateMockEmbedding` (lines 104–119): a 1536-entry
vector of `Math.sin(hash + i) * 2 - 1`, L2-normalised. (In the model,
division by a zero magnitude would yield the zero vector rather than JS
`NaN`s; the magnitude is proved nonzero below, so the branch is vacuous.) -/
noncomputable def generateMockEmbedding (text : String) : List ℝ :=
  let hash := simpleHash text
  let vector := (List.range 1536).map fun i : ℕ => Real.sin ((hash : ℝ) + (i : ℝ)) * 2 - 1
  let magnitude := Real.sqrt (sumSquares vector)
  vector.map fun val => val / magnitude

/-- `VectorService.calculateCosineSimilarity` (lines 549–572): the source's
single loop accumulates the dot product and both squared magnitudes; with
equal lengths those accumulations are the sums written here. -/
noncomputable def calculateCosineSimilarity (vectorA vectorB : List ℝ) : ℝ :=
  if vectorA.length ≠ vectorB.length then 0
  else
    let dotProduct := (List.zipWith (fun a b => a * b) vectorA vectorB).sum
    let magnitudeA := Real.sqrt ((vectorA.map fun x => x * x).sum)
    let magnitudeB := Real.sqrt ((vectorB.map fun x => x * x).sum)
    if magnitudeA = 0 ∨ magnitudeB = 0 then 0
    else dotProduct / (magnitudeA * magnitudeB)

/-! ### Local vector store — `vectorService.ts` lines 37–48, 396–609

The module-level `globalVectorStore` is modelled by explicit state passing:
each mutating operation takes the store and returns the new store with the
source function's return value. The service layer is parametrised over the
score field `α` and over the embedding/similarity functions it closes over
(`this.generateMockEmbedding`, `this.calculateCosineSimilarity`); the
source behaviour is the instantiation at `α := ℝ` with those two functions.
Ad-hoc fields merged into chunk metadata by the `...metadata` spread are
elided; the fields read anywhere in the source are kept. -/

structure RecordMeta where
  content : String
  fileId : String
  fileName : String
  fileType : String
  chunkIndex : Nat
  createdAt : String
deriving DecidableEq

/-- `VectorRecord` (vectorService.ts lines 4–18). -/
structure VectorRecord (α : Type) where
  id : String
  values : List α
  metadata : RecordMeta
deriving DecidableEq

/-- One element of `QueryResult.matches` (lines 20–29). -/
structure QMatch (α : Type) where
  id : String
  score : α
  metadata : Option RecordMeta
  content : String
deriving DecidableEq

/-- `QueryResult` (lines 20–29). -/
structure QueryResultT (α : Type) where
  success : Bool
  matches' : Option (List (QMatch α))
  error : Option String
deriving DecidableEq

/-- Return type of `storeDocument` / `storeDocumentLocal`. -/
structure StoreResult where
  success : Bool
  vectorCount : Option Nat
  error : Option String
deriving DecidableEq

/-- Return type of `deleteDocument` / `deleteDocumentLocal`. -/
structure DeleteResult where
  success : Bool
  error : Option String
deriving DecidableEq

/-- A value of the loosely-typed metadata filter of `queryDocumentsLocal`
(lines 505–527): a scalar compared with `!==`, or an array checked with
`includes`. -/
inductive FilterVal where
  | str (s : String)
  | arr (l : List String)
deriving DecidableEq

/-- `result.metadata[key]` lookup for the metadata fields of a chunk record
(string-valued fields; an unknown key reads as JS `undefined`). -/
def metaGet (md : RecordMeta) (key : String) : Option String :=
  if key = "fileId" then some md.fileId
  else if key = "fileName" then some md.fileName
  else if key = "fileType" then some md.fileType
  else if key = "content" then some md.content
  else none

/-- One `Object.entries(filter)` check of `queryDocumentsLocal`
(lines 511–523). -/
def evalFilterEntry (md : Option RecordMeta) (key : String) : FilterVal → Bool
  | .arr vs =>
    match md.bind (fun m => metaGet m key) with
    | some v => vs.contains v
    | none => false
  | .str s => md.bind (fun m => metaGet m key) == some s

/-- The whole-filter conjunction of `queryDocumentsLocal` (lines 509–525). -/
def evalFilter (filter : List (String × FilterVal)) (md : Option RecordMeta) : Bool :=
  filter.all fun kv => evalFilterEntry md kv.1 kv.2

/-- `results.sort((a, b) => b.score - a.score)` (line 531): stable sort by
descending score. -/
def sortByScoreDesc {α : Type} [LinearOrder α] (results : List (QMatch α)) :
    List (QMatch α) :=
  results.mergeSort fun a b => decide (b.score ≤ a.score)

/-- `VectorService.queryDocumentsLocal` (lines 471–547). `embed` stands for
`this.generateMockEmbedding` and `sim` for `this.calculateCosineSimilarity`. -/
def queryDocumentsLocal {α : Type} [LinearOrder α] (embed : String → List α)
    (sim : List α → List α → α) (store : List (VectorRecord α)) (queryText : String)
    (topK : Nat) (filter : Option (List (String × FilterVal))) : QueryResultT α :=
  if store.length = 0 then ⟨true, some [], none⟩
  else
    let queryVector := embed queryText
    let results := store.map fun record =>
      QMatch.mk record.id (sim queryVector record.values) (some record.metadata)
        record.metadata.content
    let filteredResults :=
      match filter with
      | some f => results.filter fun r => evalFilter f r.metadata
      | none => results
    let topResults := (sortByScoreDesc filteredResults).take topK
    ⟨true, some topResults, none⟩

/-- `VectorService.storeDocumentLocal` (lines 401–469). `embed` stands for
`this.generateMockEmbedding`; `now` for `new Date().toISOString()`. -/
def storeDocumentLocal {α : Type} (embed : String → List α) (now : String)
    (store : List (VectorRecord α)) (fileId fileName fileType content : String) :
    List (VectorRecord α) × StoreResult :=
  let chunks := (splitTextIntoChunks content.toList 1000).map String.mk
  let records := chunks.enum.filterMap fun ic =>
    let embedding := embed ic.2
    if embedding.length = 0 then none
    else some (VectorRecord.mk (fileId ++ "_chunk_" ++ toString ic.1) embedding
      (RecordMeta.mk ic.2 fileId fileName fileType ic.1 now))
  let successCount := records.length
  if successCount = 0 then (store, ⟨false, none, some "没有成功存储任何文本块"⟩)
  else
    (store ++ records,
      ⟨true, some successCount,
        if successCount < chunks.length then
          some ("部分成功: " ++ toString successCount ++ "/" ++ toString chunks.length)
        else none⟩)

/-- `VectorService.deleteDocumentLocal` (lines 595–609). The computed
`deletedCount` is only logged by the source (line 601) and is not part of
the returned value. -/
def deleteDocumentLocal {α : Type} (store : List (VectorRecord α)) (fileId : String) :
    List (VectorRecord α) × DeleteResult :=
  let initialCount := store.length
  let newStore := store.filter fun v => v.metadata.fileId != fileId
  let deletedCount := initialCount - newStore.length
  let _ := deletedCount
  (newStore, ⟨true, none⟩)

/-! ### Configuration and strategy dispatch -/

/-- The environment credentials read by the constructors of
`VectorService` (lines 45–49) and `AIService` (lines 27–32). -/
structure Env where
  pineconeApiKey : Option String
  pineconeIndexUrl : Option String
  openaiApiKey : Option String
  anthropicApiKey : Option String
  geminiApiKey : Option String
  qwenApiKey : Option String
deriving DecidableEq

/-- The `this.pineconeApiKey && this.pineconeIndexUrl` guard used by
`storeDocument`, `queryDocuments`, `deleteDocument` and `getIndexStats`. -/
def pineconeConfigured (env : Env) : Bool :=
  env.pineconeApiKey.isSome && env.pineconeIndexUrl.isSome

/-- The two embedding strategies appearing in the source: the remote OpenAI
`text-embedding-3-small` call of `generateEmbedding` (lines 52–101) and the
deterministic local `generateMockEmbedding` (lines 104–119). -/
inductive EmbedStrategy where
  | remoteOpenAI
  | localMock
deriving DecidableEq

/-- The embedding strategy `storeDocument` (lines 132–200) applies to stored
chunks: unconfigured Pinecone falls back to `storeDocumentLocal` (line 141),
which embeds with `generateMockEmbedding` (line 420); the configured path
embeds each chunk with the remote `generateEmbedding` (line 153). -/
def storeDocumentEmbedStrategy (env : Env) : EmbedStrategy :=
  if pineconeConfigured env then .remoteOpenAI else .localMock

/-- The embedding strategy `queryDocuments` (lines 203–257) applies to the
query text: the unconfigured path delegates to `queryDocumentsLocal`
(line 489, `generateMockEmbedding`), and the configured Pinecone path ALSO
uses `generateMockEmbedding` (line 215, "直接使用模拟向量生成查询") — both
branches are the local mock strategy. -/
def queryDocumentsEmbedStrategy (env : Env) : EmbedStrategy :=
  if pineconeConfigured env then .localMock else .localMock

/-- `VectorService.queryDocuments` (lines 203–257): dispatch between the
remote Pinecone query (modelled by the opaque `remote` collaborator) and
`queryDocumentsLocal`. -/
def queryDocuments {α : Type} [LinearOrder α]
    (remote : String → Nat → Option (List (String × FilterVal)) → QueryResultT α)
    (embed : String → List α) (sim : List α → List α → α) (env : Env)
    (store : List (VectorRecord α)) (queryText : String) (topK : Nat)
    (filter : Option (List (String × FilterVal))) : QueryResultT α :=
  if pineconeConfigured env then remote queryText topK filter
  else queryDocumentsLocal embed sim store queryText topK filter

/-- `VectorService.deleteDocument` (lines 260–293): dispatch between the
remote Pinecone delete and `deleteDocumentLocal`. -/
def deleteDocument {α : Type} (remoteDelete : String → DeleteResult) (env : Env)
    (store : List (VectorRecord α)) (fileId : String) :
    List (VectorRecord α) × DeleteResult :=
  if pineconeConfigured env then (store, remoteDelete fileId)
  else deleteDocumentLocal store fileId

/-! ### AI service — `aiService.ts` -/

/-- `AIMessage` (aiService.ts lines 4–7). -/
structure AIMessage where
  role : String
  content : String
deriving DecidableEq

/-- `AIResponse` (lines 9–19); token usage is not consumed by any claim and
is elided. -/
structure AIResponse where
  success : Bool
  response : Option String
  error : Option String
  model : String
deriving DecidableEq

/-- `AIService.chat` (lines 34–55) together with the credential guards at
the head of each `chatWith…` helper (lines 58–60, 112–114, 161–163,
227–229): a missing key throws, which `chat`'s catch converts into a failed
response carrying the thrown message and the dispatch-name `model`. The
network call and vendor response mapping are modelled by the opaque `net`
collaborator. -/
def aiChat (env : Env) (net : String → List AIMessage → AIResponse)
    (messages : List AIMessage) (model : String) : AIResponse :=
  if model = "gpt" then
    if env.openaiApiKey = none then ⟨false, none, some "OpenAI API密钥未配置", "gpt"⟩
    else net "gpt" messages
  else if model = "claude" then
    if env.anthropicApiKey = none then ⟨false, none, some "Claude API密钥未配置", "claude"⟩
    else net "claude" messages
  else if model = "gemini" then
    if env.geminiApiKey = none then ⟨false, none, some "Gemini API密钥未配置", "gemini"⟩
    else net "gemini" messages
  else if model = "qwen" then
    if env.qwenApiKey = none then ⟨false, none, some "Qwen API密钥未配置", "qwen"⟩
    else net "qwen" messages
  else ⟨false, none, some ("不支持的模型: " ++ model), model⟩

/-- `AIService.enhanceBridgeQuery` (aiService.ts lines 289–304). -/
def enhanceBridgeQuery (userQuery : String) : String :=
  "作为桥梁工程专家，请分析以下问题并提供专业建议：\n\n用户问题: " ++ userQuery ++
  "\n\n请从以下角度进行分析：\n1. 工程技术角度\n2. 安全性考虑\n3. 经济性评估\n4. 施工可行性\n5. 相关规范标准\n\n请提供具体、实用的建议。"

/-! ### RAG service — `ragService.ts` -/

/-- One element of `RAGResult.sources` (ragService.ts lines 10–15). -/
structure RAGSource (α : Type) where
  content : String
  fileName : String
  fileType : String
  relevanceScore : α
deriving DecidableEq

/-- `RAGResult` (lines 7–18). -/
structure RAGResult (α : Type) where
  success : Bool
  answer : Option String
  sources : Option (List (RAGSource α))
  error : Option String
  model : Option String
deriving DecidableEq

/-- The options object of `askQuestion` (lines 44–49); absent fields take
the destructuring defaults inside `askQuestion`. -/
structure AskOptions (α : Type) where
  maxSources : Option Nat
  minRelevanceScore : Option α
  conversationHistory : Option (List AIMessage)
deriving DecidableEq

/-- JS `array.slice(-n)`: the last `n` elements. -/
def jsSliceLast {β : Type} (n : Nat) (l : List β) : List β := l.drop (l.length - n)

/-- JS `x || dflt` for an optional string (`undefined` and `""` are falsy). -/
def jsOr (o : Option String) (dflt : String) : String :=
  match o with
  | some s => if s = "" then dflt else s
  | none => dflt

/-- JS template interpolation of a possibly-undefined string. -/
def jsTemplateOpt (o : Option String) : String := o.getD "undefined"

/-- JS `Math.round`: round half toward positive infinity. -/
def jsRound {α : Type} [LinearOrderedField α] [FloorRing α] (x : α) : ℤ :=
  ⌊x + 1 / 2⌋

/-- `match.content.substring(0, 300) + (match.content.length > 300 ? '...' : '')`
(ragService.ts line 105). -/
def jsSubstrEllipsis (s : String) : String :=
  String.mk (s.toList.take 300) ++ (if 300 < s.toList.length then "..." else "")

/-- `RAGService.buildContextPrompt` (lines 249–262). The source's template
writes `\\n` — a literal backslash-n — both in the join separator and before
the content; that quirk is reproduced. -/
def buildContextPrompt {α : Type} [LinearOrderedField α] [FloorRing α]
    (question : String) (sources : List (QMatch α)) : String :=
  let contextText := String.intercalate "\\n\\n" (sources.enum.map fun isrc =>
    "[文档" ++ toString (isrc.1 + 1) ++ "] " ++
    (match isrc.2.metadata with
     | some md => md.fileName
     | none => "undefined") ++
    " (相关度: " ++ toString (jsRound (isrc.2.score * 100)) ++ "%)\\n" ++ isrc.2.content)
  "你是一个专业的桥梁工程智能体。请基于以下相关文档内容回答用户的问题。\n\n相关文档内容:\n" ++
  contextText ++ "\n\n用户问题: " ++ question ++
  "\n\n请基于上述文档内容提供专业、准确的回答。如果文档内容不足以完全回答问题，请说明并提供你的专业建议。请在回答中引用具体的文档来源。"

/-- `RAGService.fallbackToDirectAI` (lines 265–303). `chat` stands for
`this.aiService.chat`. -/
def fallbackToDirectAI {α : Type} [LinearOrderedField α] [FloorRing α]
    (chat : List AIMessage → String → AIResponse)
    (question model : String) (history : List AIMessage) : RAGResult α :=
  let enhancedQuestion := enhanceBridgeQuery question
  let messages := jsSliceLast 6 history ++ [AIMessage.mk "user" enhancedQuestion]
  let aiResponse := chat messages model
  if aiResponse.success then
    ⟨true, aiResponse.response, some [], none, some aiResponse.model⟩
  else ⟨false, none, none, some (jsOr aiResponse.error "AI回答失败"), none⟩

/-- `RAGService.askQuestion` (lines 41–124). `queryDocs` stands for
`this.vectorService.queryDocuments` (applied to the question and
`maxSources`, line 59) and `chat` for `this.aiService.chat`. -/
def askQuestion {α : Type} [LinearOrderedField α] [FloorRing α]
    (queryDocs : String → Nat → QueryResultT α)
    (chat : List AIMessage → String → AIResponse)
    (question model : String) (options : AskOptions α) : RAGResult α :=
  let maxSources := options.maxSources.getD 5
  let minRelevanceScore := options.minRelevanceScore.getD (7 / 10)
  let conversationHistory := options.conversationHistory.getD []
  let retrievalResult := queryDocs question maxSources
  if retrievalResult.success = false then
    fallbackToDirectAI chat question model conversationHistory
  else
    let relevantSources := (retrievalResult.matches'.getD []).filter
      fun mtch => decide (minRelevanceScore ≤ mtch.score)
    if relevantSources.length = 0 then
      fallbackToDirectAI chat question model conversationHistory
    else
      let contextPrompt := buildContextPrompt question relevantSources
      let messages := jsSliceLast 6 conversationHistory ++
        [AIMessage.mk "user" contextPrompt]
      let aiResponse := chat messages model
      if aiResponse.success = false then
        ⟨false, none, none,
          some ("AI回答生成失败: " ++ jsTemplateOpt aiResponse.error), none⟩
      else
        let sources := relevantSources.map fun mtch =>
          RAGSource.mk (jsSubstrEllipsis mtch.content)
            (jsOr (mtch.metadata.map RecordMeta.fileName) "未知文件")
            (jsOr (mtch.metadata.map RecordMeta.fileType) "unknown")
            (((jsRound (mtch.score * 100) : ℤ) : α) / 100)
        ⟨true, aiResponse.response, some sources, none, some aiResponse.model⟩

/-- The ingestion metadata fields read by `enhanceBridgeContent`
(ragService.ts lines 324–330). -/
structure KBMeta where
  contentType : Option String
  bridgeTermsFound : List String
deriving DecidableEq

/-- The bridge keyword list of `enhanceBridgeContent` (lines 310–315). -/
def bridgeKeywords : List String :=
  ["承载力", "安全系数", "荷载", "弯矩", "剪力", "挠度",
   "混凝土", "钢筋", "预应力", "徐变", "收缩", "疲劳",
   "桥墩", "桥台", "桥面", "主梁", "桥跨", "支座",
   "伸缩缝", "排水", "护栏", "抗震", "风荷载"]

/-- Fuelled left-to-right replace-all of a nonempty pattern
(JS `string.replace(/pat/g, repl)`). -/
def replaceAllGo : Nat → List Char → List Char → List Char → List Char
  | 0, s, _, _ => s
  | fuel + 1, s, pat, repl =>
    match s with
    | [] => []
    | c :: rest =>
      if pat.isPrefixOf (c :: rest) then
        repl ++ replaceAllGo fuel ((c :: rest).drop pat.length) pat repl
      else c :: replaceAllGo fuel rest pat repl

/-- JS global string replacement with a literal pattern. -/
def jsReplaceAll (s pat repl : String) : String :=
  if pat = "" then s
  else String.mk (replaceAllGo (s.toList.length + 1) s.toList pat.toList repl.toList)

/-- `RAGService.enhanceBridgeContent` (lines 306–333). -/
def enhanceBridgeContent (content : String) (metadata : KBMeta) : String :=
  let enhanced := bridgeKeywords.foldl
    (fun acc keyword => jsReplaceAll acc keyword ("[桥梁术语:" ++ keyword ++ "]")) content
  let enhanced :=
    match metadata.contentType with
    | some ct => "[文档类型: " ++ ct ++ "]\n" ++ enhanced
    | none => enhanced
  match metadata.bridgeTermsFound with
  | [] => enhanced
  | terms => "[包含术语: " ++ String.intercalate ", " terms ++ "]\n" ++ enhanced

/-- `RAGService.addToKnowledgeBase` (lines 127–165): it enhances the content
and then calls `storeDocumentLocal` DIRECTLY (line 143, "直接调用本地存储"),
regardless of the configured environment. -/
def addToKnowledgeBase {α : Type} (embed : String → List α) (now : String)
    (store : List (VectorRecord α)) (fileId fileName fileType content : String)
    (metadata : KBMeta) : List (VectorRecord α) × StoreResult :=
  let enhancedContent := enhanceBridgeContent content metadata
  storeDocumentLocal embed now store fileId fileName fileType enhancedContent

/-- `RAGService.removeFromKnowledgeBase` (lines 168–170): delegates to
`VectorService.deleteDocument`. -/
def removeFromKnowledgeBase {α : Type} (remoteDelete : String → DeleteResult)
    (env : Env) (store : List (VectorRecord α)) (fileId : String) :
    List (VectorRecord α) × DeleteResult :=
  deleteDocument remoteDelete env store fileId

/-- Characters that are neither whitespace nor sentence delimiters: the
content alphabet that the chunker is able to preserve. -/
def isContentChar (c : Char) : Bool := !isWS c && !isSentenceDelim c

/-- Non-whitespace characters (the "significant content" of the spec's
reconstruction property). -/
def isNonWS (c : Char) : Bool := !isWS c

/-! ## Helper lemmas -/

theorem length_filter_add_length_filter_not {β : Type} (l : List β) (p : β → Bool) :
    (l.filter p).length + (l.filter fun x => !(p x)).length = l.length := by
  induction l with
  | nil => simp
  | cons a l ih =>
    by_cases h : p a = true <;> simp [List.filter_cons, h, ← ih] <;> omega

/-! ## Claim C1 -/

/-- Claim C1: the claimed invariant — one embedding strategy per index for
both ingestion and query — fails on the code: with Pinecone configured,
`storeDocument` embeds stored chunks with the remote OpenAI strategy
(line 153) while `queryDocuments` embeds the query text with the local mock
strategy (line 215), so the two strategies differ on that configuration. -/
theorem C1_embedding_strategy_mismatch :
    storeDocumentEmbedStrategy
        (Env.mk (some "pk") (some "https://idx.pinecone.io") (some "sk") none none none)
      = EmbedStrategy.remoteOpenAI ∧
    queryDocumentsEmbedStrategy
        (Env.mk (some "pk") (some "https://idx.pinecone.io") (some "sk") none none none)
      = EmbedStrategy.localMock ∧
    storeDocumentEmbedStrategy
        (Env.mk (some "pk") (some "https://idx.pinecone.io") (some "sk") none none none)
      ≠ queryDocumentsEmbedStrategy
        (Env.mk (some "pk") (some "https://idx.pinecone.io") (some "sk") none none none) := by
  refine ⟨rfl, rfl, ?_⟩
  decide

/-! ## Claims C8 and C10: document deletion -/

/-- Claim C8 (amended): `deleteDocumentLocal` removes every record whose
`metadata.fileId` equals the given id, always returns a bare success result
(no error — in particular deleting an unknown id is not an error), removes
exactly as many records as match the id (so an unknown id removes zero), is
idempotent, and after deletion a query over the store returns no match whose
metadata carries that fileId. -/
theorem C8_delete_document (α : Type) [LinearOrder α] (embed : String → List α)
    (sim : List α → List α → α) (store : List (VectorRecord α))
    (fileId queryText : String) (topK : Nat)
    (filter : Option (List (String × FilterVal))) :
    ((deleteDocumentLocal store fileId).1.all fun r => r.metadata.fileId != fileId)
      = true ∧
    (deleteDocumentLocal store fileId).2 = DeleteResult.mk true none ∧
    store.length - (deleteDocumentLocal store fileId).1.length
      = (store.filter fun r => r.metadata.fileId == fileId).length ∧
    deleteDocumentLocal (deleteDocumentLocal store fileId).1 fileId
      = ((deleteDocumentLocal store fileId).1, DeleteResult.mk true none) ∧
    (((queryDocumentsLocal embed sim (deleteDocumentLocal store fileId).1 queryText
          topK filter).matches'.getD []).all fun m =>
        match m.metadata with
        | some md => md.fileId != fileId
        | none => true) = true := by
  have hmem : ∀ r ∈ (deleteDocumentLocal store fileId).1,
      (r.metadata.fileId != fileId) = true :=
    fun r hr => (List.mem_filter.mp hr).2
  refine ⟨List.all_eq_true.mpr hmem, rfl, ?_, ?_, ?_⟩
  · have h := length_filter_add_length_filter_not store
      (fun r => r.metadata.fileId == fileId)
    have hco : (store.filter fun r => !(r.metadata.fileId == fileId))
        = store.filter fun r => r.metadata.fileId != fileId := by
      simp [bne]
    rw [hco] at h
    show store.length - (store.filter fun r => r.metadata.fileId != fileId).length = _
    omega
  · show ((deleteDocumentLocal store fileId).1.filter fun v =>
        v.metadata.fileId != fileId, DeleteResult.mk true none) = _
    rw [List.filter_eq_self.mpr hmem]
  · by_cases h : (deleteDocumentLocal store fileId).1.length = 0
    · simp [queryDocumentsLocal, h]
    · rw [queryDocumentsLocal, if_neg h]
      refine List.all_eq_true.mpr fun m hm => ?_
      simp only [Option.getD_some] at hm
      have hm1 : m ∈ sortByScoreDesc (match filter with
          | some f => ((deleteDocumentLocal store fileId).1.map fun record =>
              QMatch.mk record.id (sim (embed queryText) record.values)
                (some record.metadata) record.metadata.content).filter
                  fun r => evalFilter f r.metadata
          | none => (deleteDocumentLocal store fileId).1.map fun record =>
              QMatch.mk record.id (sim (embed queryText) record.values)
                (some record.metadata) record.metadata.content) :=
        List.mem_of_mem_take hm
      rw [sortByScoreDesc, List.mem_mergeSort] at hm1
      have hm2 : m ∈ (deleteDocumentLocal store fileId).1.map fun record =>
          QMatch.mk record.id (sim (embed queryText) record.values)
            (some record.metadata) record.metadata.content := by
        cases filter with
        | none => exact hm1
        | some f => exact (List.mem_filter.mp hm1).1
      obtain ⟨record, hrec, rfl⟩ := List.mem_map.mp hm2
      exact hmem record hrec

/-- Claim C8 counterexample: the claim says the delete operation "returns a
result carrying deletedCount", but the source only logs the count and
returns a bare `{success: true}`: deleting a store holding two matching
records and deleting from the empty store return the identical result value,
although the numbers of removed records (2 and 0) differ. -/
theorem C8_counterexample_no_deletedCount :
    (deleteDocumentLocal (α := ℚ)
        [VectorRecord.mk "d_chunk_0" [1] (RecordMeta.mk "c0" "d" "f.pdf" "document" 0 "t"),
         VectorRecord.mk "d_chunk_1" [1] (RecordMeta.mk "c1" "d" "f.pdf" "document" 1 "t")]
        "d").2
      = (deleteDocumentLocal (α := ℚ) [] "d").2 ∧
    ([VectorRecord.mk "d_chunk_0" [(1 : ℚ)] (RecordMeta.mk "c0" "d" "f.pdf" "document" 0 "t"),
      VectorRecord.mk "d_chunk_1" [1] (RecordMeta.mk "c1" "d" "f.pdf" "document" 1 "t")].length
      - (deleteDocumentLocal (α := ℚ)
        [VectorRecord.mk "d_chunk_0" [1] (RecordMeta.mk "c0" "d" "f.pdf" "document" 0 "t"),
         VectorRecord.mk "d_chunk_1" [1] (RecordMeta.mk "c1" "d" "f.pdf" "document" 1 "t")]
        "d").1.length = 2) ∧
    (([] : List (VectorRecord ℚ)).length
      - (deleteDocumentLocal (α := ℚ) [] "d").1.length = 0) := by
  refine ⟨rfl, ?_, rfl⟩
  decide

/-- Claim C10: `deleteDocumentLocal` removes exactly the records whose
`metadata.fileId` equals the argument: the retained records are a sublist of
the original store (same records, same relative order), membership in the
new store is exactly membership in the old one with a different fileId, the
retained count is the count of non-matching records, and the result is a
success even when nothing matched. -/
theorem C10_delete_frame (α : Type) (store : List (VectorRecord α)) (fileId : String) :
    ((deleteDocumentLocal store fileId).1).Sublist store ∧
    (∀ r : VectorRecord α, r ∈ (deleteDocumentLocal store fileId).1 ↔
      (r ∈ store ∧ r.metadata.fileId ≠ fileId)) ∧
    (deleteDocumentLocal store fileId).1.length
      = (store.filter fun r => r.metadata.fileId != fileId).length ∧
    (deleteDocumentLocal store fileId).2.success = true := by
  refine ⟨List.filter_sublist _, fun r => ?_, rfl, rfl⟩
  show r ∈ store.filter (fun v => v.metadata.fileId != fileId) ↔ _
  rw [List.mem_filter, bne_iff_ne]

/-! ## Claim C7: cosine similarity -/

theorem sum_map_mul_self_nonneg (l : List ℝ) : 0 ≤ (l.map fun x => x * x).sum := by
  apply List.sum_nonneg
  intro b hb
  obtain ⟨c, _, rfl⟩ := List.mem_map.mp hb
  exact mul_self_nonneg c

theorem sum_map_mul_self_pos (l : List ℝ) (x : ℝ) (hx : x ∈ l) (hx0 : x ≠ 0) :
    0 < (l.map fun x => x * x).sum := by
  have h1 : 0 < x * x := mul_self_pos.mpr hx0
  have hle : x * x ≤ (l.map fun y => y * y).sum := by
    apply List.single_le_sum _ _ (List.mem_map_of_mem _ hx)
    intro b hb
    obtain ⟨c, _, rfl⟩ := List.mem_map.mp hb
    exact mul_self_nonneg c
  linarith

/-- Claim C7: `calculateCosineSimilarity` is symmetric; the self-similarity
of a vector with some nonzero entry is exactly 1 (in the real-number model
the "≈ 1 within tolerance" is exact); and whenever one argument is the
all-zero (zero-norm) vector the similarity is 0 in either argument order —
the function is total into ℝ, never undefined. -/
theorem C7_cosine_similarity_properties :
    (∀ a b : List ℝ, calculateCosineSimilarity a b = calculateCosineSimilarity b a) ∧
    (∀ v : List ℝ, (∃ x ∈ v, x ≠ 0) → calculateCosineSimilarity v v = 1) ∧
    (∀ z x : List ℝ, (∀ c ∈ z, c = 0) →
      calculateCosineSimilarity z x = 0 ∧ calculateCosineSimilarity x z = 0) := by
  have hsymm : ∀ a b : List ℝ,
      calculateCosineSimilarity a b = calculateCosineSimilarity b a := by
    intro a b
    unfold calculateCosineSimilarity
    rw [List.zipWith_comm_of_comm _ mul_comm a b]
    by_cases h : a.length = b.length
    · conv_lhs => rw [if_neg (show ¬ a.length ≠ b.length by simp [h])]
      conv_rhs => rw [if_neg (show ¬ b.length ≠ a.length by simp [h])]
      by_cases hA : Real.sqrt ((a.map fun x => x * x).sum) = 0 <;>
        by_cases hB : Real.sqrt ((b.map fun x => x * x).sum) = 0 <;>
        simp [hA, hB, or_comm, mul_comm]
    · conv_lhs => rw [if_pos h]
      conv_rhs => rw [if_pos (fun hh => h hh.symm)]
  have hzero : ∀ z x : List ℝ, (∀ c ∈ z, c = 0) → calculateCosineSimilarity z x = 0 := by
    intro z x hz
    have hs : (z.map fun c => c * c).sum = 0 := by
      apply List.sum_eq_zero
      intro b hb
      obtain ⟨c, hc, rfl⟩ := List.mem_map.mp hb
      rw [hz c hc, mul_zero]
    unfold calculateCosineSimilarity
    by_cases h : z.length = x.length
    · rw [if_neg (by simp [h]), if_pos (Or.inl (by rw [hs, Real.sqrt_zero]))]
    · rw [if_pos (by simp [h])]
  refine ⟨hsymm, ?_, fun z x hz => ⟨hzero z x hz, (hsymm x z).trans (hzero z x hz)⟩⟩
  intro v hv
  obtain ⟨x, hx, hx0⟩ := hv
  have hsum : 0 < (v.map fun y => y * y).sum := sum_map_mul_self_pos v x hx hx0
  have hsqrt : Real.sqrt ((v.map fun y => y * y).sum) ≠ 0 :=
    ne_of_gt (Real.sqrt_pos.mpr hsum)
  unfold calculateCosineSimilarity
  rw [if_neg (by simp), if_neg (by simp [hsqrt])]
  have hdot : (List.zipWith (fun a b => a * b) v v) = v.map fun y => y * y := by
    induction v with
    | nil => rfl
    | cons a l ih => simp [List.zipWith_cons_cons, ih]
  rw [hdot, Real.mul_self_sqrt (le_of_lt hsum)]
  exact div_self (ne_of_gt hsum)

/-- Concrete instantiation of the hypotheses of C7: the vector `[2]` has a
nonzero entry and self-similarity 1; the vector `[0]` is zero-norm and its
similarity with `[5]` is 0 in both argument orders. -/
theorem C7_witness :
    ((∃ x ∈ [(2 : ℝ)], x ≠ 0) ∧ calculateCosineSimilarity [(2 : ℝ)] [(2 : ℝ)] = 1) ∧
    ((∀ c ∈ [(0 : ℝ)], c = 0) ∧ calculateCosineSimilarity [(0 : ℝ)] [(5 : ℝ)] = 0 ∧
      calculateCosineSimilarity [(5 : ℝ)] [(0 : ℝ)] = 0) := by
  have h1 : ∃ x ∈ [(2 : ℝ)], x ≠ 0 := ⟨2, by simp, two_ne_zero⟩
  have h2 : ∀ c ∈ [(0 : ℝ)], c = 0 := by simp
  exact ⟨⟨h1, C7_cosine_similarity_properties.2.1 _ h1⟩,
    ⟨h2, (C7_cosine_similarity_properties.2.2 _ [(5 : ℝ)] h2).1,
      (C7_cosine_similarity_properties.2.2 _ [(5 : ℝ)] h2).2⟩⟩

/-! ## Claim C6: the deterministic mock embedding -/

theorem sumSquares_eq_sum_map (l : List ℝ) : sumSquares l = (l.map fun x => x * x).sum := by
  suffices h : ∀ a : ℝ, l.foldl (fun sum val => sum + val * val) a
      = a + (l.map fun x => x * x).sum by
    have := h 0
    rw [zero_add] at this
    exact this
  induction l with
  | nil => intro a; simp
  | cons b l ih => intro a; simp [List.foldl_cons, ih, add_assoc]

/-- No real number has `sin c = sin (c+1) = sin (c+2) = 1/2`: subtracting
the sine addition formulas at `c = (c+1)-1` and `c+2 = (c+1)+1` forces
`cos (c+1) = 0`, hence `sin (c+1) = ±1 ≠ 1/2`. -/
theorem sin_three_consecutive_ne (c : ℝ) (h0 : Real.sin c = 1 / 2)
    (h1 : Real.sin (c + 1) = 1 / 2) : Real.sin (c + 2) ≠ 1 / 2 := by
  intro h2
  have e2 : Real.sin (c + 2)
      = Real.sin (c + 1) * Real.cos 1 + Real.cos (c + 1) * Real.sin 1 := by
    have e := Real.sin_add (c + 1) 1
    rw [show c + 1 + 1 = c + 2 by ring] at e
    exact e
  have e0 : Real.sin c
      = Real.sin (c + 1) * Real.cos 1 - Real.cos (c + 1) * Real.sin 1 := by
    have e := Real.sin_sub (c + 1) 1
    rw [show c + 1 - 1 = c by ring] at e
    exact e
  have hprod : Real.cos (c + 1) * Real.sin 1 = 0 := by
    rw [h0] at e0
    rw [h2] at e2
    linarith
  have hsin1 : Real.sin 1 ≠ 0 := by
    have hpos : 0 < Real.sin 1 :=
      Real.sin_pos_of_pos_of_lt_pi one_pos (by linarith [Real.pi_gt_three])
    linarith
  have hcos0 : Real.cos (c + 1) = 0 := by
    rcases mul_eq_zero.mp hprod with h | h
    · exact h
    · exact absurd h hsin1
  have hpyth := Real.sin_sq_add_cos_sq (c + 1)
  rw [hcos0, h1] at hpyth
  norm_num at hpyth

set_option maxRecDepth 4000 in
/-- The raw (pre-normalisation) mock-embedding vector for hash value `h` has
a nonzero entry. -/
theorem mock_base_has_nonzero (h : ℝ) :
    ∃ x ∈ (List.range 1536).map (fun i : ℕ => Real.sin (h + (i : ℝ)) * 2 - 1), x ≠ 0 := by
  by_contra hall
  push_neg at hall
  have hz : ∀ i : ℕ, i < 1536 → Real.sin (h + (i : ℝ)) = 1 / 2 := by
    intro i hi
    have := hall _ (List.mem_map_of_mem _ (List.mem_range.mpr hi))
    linarith
  have s0 := hz 0 (by norm_num)
  have s1 := hz 1 (by norm_num)
  have s2 := hz 2 (by norm_num)
  push_cast at s0 s1 s2
  rw [add_zero] at s0
  exact sin_three_consecutive_ne h s0 s1 s2

/-- Claim C6: `generateMockEmbedding` is a pure total function of its input:
it always returns a vector of dimension 1536, identical inputs give
identical vectors (in this pure model, definitionally — the source touches
no external state), and the L2 norm of the returned vector is exactly 1 in
the real-number model (the float code attains it within rounding). -/
theorem C6_mock_embedding_unit_vector (t : String) :
    (generateMockEmbedding t).length = 1536 ∧
    generateMockEmbedding t = generateMockEmbedding t ∧
    Real.sqrt (sumSquares (generateMockEmbedding t)) = 1 := by
  refine ⟨by simp only [generateMockEmbedding, List.length_map, List.length_range], rfl, ?_⟩
  unfold generateMockEmbedding
  obtain ⟨x, hx, hx0⟩ := mock_base_has_nonzero ((simpleHash t : ℤ) : ℝ)
  set base := (List.range 1536).map
    (fun i : ℕ => Real.sin (((simpleHash t : ℤ) : ℝ) + (i : ℝ)) * 2 - 1) with hbase
  have hS : 0 < (base.map fun y => y * y).sum := sum_map_mul_self_pos base x hx hx0
  have hSS : sumSquares base = (base.map fun y => y * y).sum := sumSquares_eq_sum_map base
  set m := Real.sqrt (sumSquares base) with hm
  have hmpos : 0 < m := by
    rw [hm, hSS]
    exact Real.sqrt_pos.mpr hS
  have hmm : m * m = (base.map fun y => y * y).sum := by
    rw [hm, hSS]
    exact Real.mul_self_sqrt (le_of_lt hS)
  have hmap : (base.map fun val => val / m).map (fun y => y * y)
      = base.map fun y => (y * y) * (m * m)⁻¹ := by
    rw [List.map_map]
    refine List.map_congr_left fun y _ => ?_
    simp only [Function.comp_apply]
    rw [div_eq_mul_inv]
    ring
  have hsum1 : sumSquares (base.map fun val => val / m) = 1 := by
    rw [sumSquares_eq_sum_map, hmap, List.sum_map_mul_right, hmm]
    exact mul_inv_cancel₀ (ne_of_gt hS)
  rw [hsum1, Real.sqrt_one]

/-! ## Branch lemmas for `askQuestion` -/

theorem askQuestion_retrieval_failed {α : Type} [LinearOrderedField α] [FloorRing α]
    (queryDocs : String → Nat → QueryResultT α)
    (chat : List AIMessage → String → AIResponse)
    (question model : String) (options : AskOptions α)
    (h : (queryDocs question (options.maxSources.getD 5)).success = false) :
    askQuestion queryDocs chat question model options
      = fallbackToDirectAI chat question model (options.conversationHistory.getD []) := by
  simp only [askQuestion]
  rw [if_pos h]

theorem askQuestion_no_relevant {α : Type} [LinearOrderedField α] [FloorRing α]
    (queryDocs : String → Nat → QueryResultT α)
    (chat : List AIMessage → String → AIResponse)
    (question model : String) (options : AskOptions α)
    (h2 : ((queryDocs question (options.maxSources.getD 5)).matches'.getD []).filter
      (fun mtch => decide (options.minRelevanceScore.getD (7 / 10) ≤ mtch.score)) = []) :
    askQuestion queryDocs chat question model options
      = fallbackToDirectAI chat question model (options.conversationHistory.getD []) := by
  simp only [askQuestion]
  by_cases h1 : (queryDocs question (options.maxSources.getD 5)).success = false
  · rw [if_pos h1]
  · rw [if_neg h1, h2]
    simp

theorem askQuestion_grounded_eq {α : Type} [LinearOrderedField α] [FloorRing α]
    (queryDocs : String → Nat → QueryResultT α)
    (chat : List AIMessage → String → AIResponse)
    (question model : String) (options : AskOptions α)
    (relevant : List (QMatch α))
    (h1 : (queryDocs question (options.maxSources.getD 5)).success = true)
    (hrel : ((queryDocs question (options.maxSources.getD 5)).matches'.getD []).filter
      (fun mtch => decide (options.minRelevanceScore.getD (7 / 10) ≤ mtch.score)) = relevant)
    (hne : relevant ≠ []) :
    askQuestion queryDocs chat question model options
      = (let aiResponse := chat (jsSliceLast 6 (options.conversationHistory.getD []) ++
          [AIMessage.mk "user" (buildContextPrompt question relevant)]) model
        if aiResponse.success = false then
          RAGResult.mk false none none
            (some ("AI回答生成失败: " ++ jsTemplateOpt aiResponse.error)) none
        else
          RAGResult.mk true aiResponse.response
            (some (relevant.map fun mtch =>
              RAGSource.mk (jsSubstrEllipsis mtch.content)
                (jsOr (mtch.metadata.map RecordMeta.fileName) "未知文件")
                (jsOr (mtch.metadata.map RecordMeta.fileType) "unknown")
                (((jsRound (mtch.score * 100) : ℤ) : α) / 100)))
            none (some aiResponse.model)) := by
  simp only [askQuestion]
  rw [if_neg (by simp [h1]), hrel,
    if_neg (fun hl => hne (List.length_eq_zero.mp hl))]

/-! ## Claim C2 -/

/-- Claim C2: if retrieval fails or no retrieved match reaches
`minRelevanceScore`, `askQuestion` degrades to a direct ungrounded chat — it
returns exactly `fallbackToDirectAI`, whose chat messages are the bounded
history plus the (enhanced) raw question and carry no retrieved content —
and when that chat succeeds the result is a success with `sources = []`;
whereas a chat failure on the grounded path is surfaced as a failed result
carrying the provider's error message. -/
theorem C2_fallback_and_generation_failure (α : Type) [LinearOrderedField α]
    [FloorRing α] (queryDocs : String → Nat → QueryResultT α)
    (chat : List AIMessage → String → AIResponse)
    (question model : String) (options : AskOptions α) :
    (((queryDocs question (options.maxSources.getD 5)).success = false ∨
        ((queryDocs question (options.maxSources.getD 5)).matches'.getD []).filter
          (fun mtch => decide (options.minRelevanceScore.getD (7 / 10) ≤ mtch.score))
          = []) →
      askQuestion queryDocs chat question model options
        = fallbackToDirectAI chat question model
            (options.conversationHistory.getD []) ∧
      ((chat (jsSliceLast 6 (options.conversationHistory.getD []) ++
            [AIMessage.mk "user" (enhanceBridgeQuery question)]) model).success = true →
        (askQuestion queryDocs chat question model options).success = true ∧
        (askQuestion queryDocs chat question model options).sources = some [] ∧
        (askQuestion queryDocs chat question model options).answer
          = (chat (jsSliceLast 6 (options.conversationHistory.getD []) ++
              [AIMessage.mk "user" (enhanceBridgeQuery question)]) model).response)) ∧
    (∀ relevant : List (QMatch α),
      relevant = ((queryDocs question (options.maxSources.getD 5)).matches'.getD []).filter
        (fun mtch => decide (options.minRelevanceScore.getD (7 / 10) ≤ mtch.score)) →
      (queryDocs question (options.maxSources.getD 5)).success = true →
      relevant ≠ [] →
      (chat (jsSliceLast 6 (options.conversationHistory.getD []) ++
        [AIMessage.mk "user" (buildContextPrompt question relevant)]) model).success
        = false →
      askQuestion queryDocs chat question model options
        = RAGResult.mk false none none
            (some ("AI回答生成失败: " ++ jsTemplateOpt
              (chat (jsSliceLast 6 (options.conversationHistory.getD []) ++
                [AIMessage.mk "user" (buildContextPrompt question relevant)])
                model).error)) none) := by
  constructor
  · intro h
    have hfb : askQuestion queryDocs chat question model options
        = fallbackToDirectAI chat question model
            (options.conversationHistory.getD []) := by
      rcases h with h | h
      · exact askQuestion_retrieval_failed queryDocs chat question model options h
      · exact askQuestion_no_relevant queryDocs chat question model options h
    refine ⟨hfb, fun hchat => ?_⟩
    rw [hfb]
    simp only [fallbackToDirectAI]
    rw [if_pos hchat]
    exact ⟨rfl, rfl, rfl⟩
  · intro relevant hrel hs hne hchat
    rw [askQuestion_grounded_eq queryDocs chat question model options relevant hs
      hrel.symm hne]
    simp only []
    rw [if_pos hchat]

/-- Concrete instantiation of C2's hypotheses: an empty retrieval result
with a succeeding chat yields a success with empty sources, and one strong
match with a failing chat yields the failed result with the provider
message. -/
theorem C2_witness :
    ((askQuestion (α := ℚ) (fun _ _ => QueryResultT.mk true (some []) none)
        (fun _ _ => AIResponse.mk true (some "direct answer") none "GPT-4o Mini")
        "q" "gpt" (AskOptions.mk none none none)).success = true ∧
      (askQuestion (α := ℚ) (fun _ _ => QueryResultT.mk true (some []) none)
        (fun _ _ => AIResponse.mk true (some "direct answer") none "GPT-4o Mini")
        "q" "gpt" (AskOptions.mk none none none)).sources = some []) ∧
    askQuestion (α := ℚ)
        (fun _ _ => QueryResultT.mk true
          (some [QMatch.mk "m1" 1 none "c1"]) none)
        (fun _ _ => AIResponse.mk false none (some "provider down") "gpt")
        "q" "gpt" (AskOptions.mk none (some 0) none)
      = RAGResult.mk false none none
          (some ("AI回答生成失败: " ++ jsTemplateOpt (some "provider down"))) none := by
  constructor
  · have h := (C2_fallback_and_generation_failure ℚ
      (fun _ _ => QueryResultT.mk true (some []) none)
      (fun _ _ => AIResponse.mk true (some "direct answer") none "GPT-4o Mini")
      "q" "gpt" (AskOptions.mk none none none)).1 (Or.inr rfl)
    exact ⟨(h.2 rfl).1, (h.2 rfl).2.1⟩
  · exact (C2_fallback_and_generation_failure ℚ
      (fun _ _ => QueryResultT.mk true (some [QMatch.mk "m1" 1 none "c1"]) none)
      (fun _ _ => AIResponse.mk false none (some "provider down") "gpt")
      "q" "gpt" (AskOptions.mk none (some 0) none)).2
      [QMatch.mk "m1" 1 none "c1"] (by decide) rfl (by decide) rfl

/-! ## Claim C5 -/

/-- Claim C5: every source of any `askQuestion` result arises from a
retrieved match whose score is at least `minRelevanceScore` (default 7/10),
mapped exactly as the source maps it; and on the grounded path the chat
model is invoked with the prompt built from precisely the filtered matches,
whose mapped versions are exactly the returned sources. -/
theorem C5_relevance_filter_soundness (α : Type) [LinearOrderedField α] [FloorRing α]
    (queryDocs : String → Nat → QueryResultT α)
    (chat : List AIMessage → String → AIResponse)
    (question model : String) (options : AskOptions α) :
    (∀ s ∈ (askQuestion queryDocs chat question model options).sources.getD [],
      ∃ mtch ∈ (queryDocs question (options.maxSources.getD 5)).matches'.getD [],
        options.minRelevanceScore.getD (7 / 10) ≤ mtch.score ∧
        s = RAGSource.mk (jsSubstrEllipsis mtch.content)
              (jsOr (mtch.metadata.map RecordMeta.fileName) "未知文件")
              (jsOr (mtch.metadata.map RecordMeta.fileType) "unknown")
              (((jsRound (mtch.score * 100) : ℤ) : α) / 100)) ∧
    (∀ relevant : List (QMatch α),
      relevant = ((queryDocs question (options.maxSources.getD 5)).matches'.getD []).filter
        (fun mtch => decide (options.minRelevanceScore.getD (7 / 10) ≤ mtch.score)) →
      (queryDocs question (options.maxSources.getD 5)).success = true →
      relevant ≠ [] →
      (chat (jsSliceLast 6 (options.conversationHistory.getD []) ++
        [AIMessage.mk "user" (buildContextPrompt question relevant)]) model).success
        = true →
      askQuestion queryDocs chat question model options
        = RAGResult.mk true
            (chat (jsSliceLast 6 (options.conversationHistory.getD []) ++
              [AIMessage.mk "user" (buildContextPrompt question relevant)])
              model).response
            (some (relevant.map fun mtch =>
              RAGSource.mk (jsSubstrEllipsis mtch.content)
                (jsOr (mtch.metadata.map RecordMeta.fileName) "未知文件")
                (jsOr (mtch.metadata.map RecordMeta.fileType) "unknown")
                (((jsRound (mtch.score * 100) : ℤ) : α) / 100)))
            none
            (some (chat (jsSliceLast 6 (options.conversationHistory.getD []) ++
              [AIMessage.mk "user" (buildContextPrompt question relevant)])
              model).model)) := by
  constructor
  · intro s hs
    by_cases h1 : (queryDocs question (options.maxSources.getD 5)).success = false
    · rw [askQuestion_retrieval_failed queryDocs chat question model options h1] at hs
      simp only [fallbackToDirectAI] at hs
      split_ifs at hs <;> simp at hs
    · by_cases h2 : ((queryDocs question (options.maxSources.getD 5)).matches'.getD
          []).filter
          (fun mtch => decide (options.minRelevanceScore.getD (7 / 10) ≤ mtch.score))
          = []
      · rw [askQuestion_no_relevant queryDocs chat question model options h2] at hs
        simp only [fallbackToDirectAI] at hs
        split_ifs at hs <;> simp at hs
      · have h1' : (queryDocs question (options.maxSources.getD 5)).success = true := by
          revert h1
          cases (queryDocs question (options.maxSources.getD 5)).success <;> simp
        rw [askQuestion_grounded_eq queryDocs chat question model options _ h1' rfl h2]
          at hs
        simp only [] at hs
        by_cases h3 : (chat (jsSliceLast 6 (options.conversationHistory.getD []) ++
            [AIMessage.mk "user" (buildContextPrompt question
              (((queryDocs question (options.maxSources.getD 5)).matches'.getD
                []).filter (fun mtch =>
                  decide (options.minRelevanceScore.getD (7 / 10) ≤ mtch.score))))])
            model).success = false
        · rw [if_pos h3] at hs
          simp at hs
        · rw [if_neg h3] at hs
          simp only [Option.getD_some] at hs
          obtain ⟨mtch, hm, rfl⟩ := List.mem_map.mp hs
          have hmf := List.mem_filter.mp hm
          exact ⟨mtch, hmf.1, of_decide_eq_true hmf.2, rfl⟩
  · intro relevant hrel hs hne hchat
    rw [askQuestion_grounded_eq queryDocs chat question model options relevant hs
      hrel.symm hne]
    simp only []
    rw [if_neg (by simp [hchat])]

/-- Concrete instantiation of C5's hypotheses: one retrieved match with
score 1 (at or above the instantiated threshold 0) flows through the
grounded path; the returned source is in the result and the theorem
produces its matching retrieved match with its score bound. -/
theorem C5_witness :
    (RAGSource.mk (jsSubstrEllipsis "c1")
        (jsOr ((none : Option RecordMeta).map RecordMeta.fileName) "未知文件")
        (jsOr ((none : Option RecordMeta).map RecordMeta.fileType) "unknown")
        (((jsRound ((1 : ℚ) * 100) : ℤ) : ℚ) / 100)
      ∈ (askQuestion (α := ℚ)
          (fun _ _ => QueryResultT.mk true (some [QMatch.mk "m1" 1 none "c1"]) none)
          (fun _ _ => AIResponse.mk true (some "grounded answer") none "GPT-4o Mini")
          "q" "gpt" (AskOptions.mk none (some 0) none)).sources.getD []) ∧
    (∃ mtch ∈ (QueryResultT.mk true
        (some [QMatch.mk "m1" (1 : ℚ) none "c1"]) none).matches'.getD [],
      (0 : ℚ) ≤ mtch.score ∧
      RAGSource.mk (jsSubstrEllipsis "c1")
          (jsOr ((none : Option RecordMeta).map RecordMeta.fileName) "未知文件")
          (jsOr ((none : Option RecordMeta).map RecordMeta.fileType) "unknown")
          (((jsRound ((1 : ℚ) * 100) : ℤ) : ℚ) / 100)
        = RAGSource.mk (jsSubstrEllipsis mtch.content)
            (jsOr (mtch.metadata.map RecordMeta.fileName) "未知文件")
            (jsOr (mtch.metadata.map RecordMeta.fileType) "unknown")
            (((jsRound (mtch.score * 100) : ℤ) : ℚ) / 100)) := by
  have h := (C5_relevance_filter_soundness ℚ
    (fun _ _ => QueryResultT.mk true (some [QMatch.mk "m1" 1 none "c1"]) none)
    (fun _ _ => AIResponse.mk true (some "grounded answer") none "GPT-4o Mini")
    "q" "gpt" (AskOptions.mk none (some 0) none)).2
    [QMatch.mk "m1" 1 none "c1"] (by decide) rfl (by decide) rfl
  have hmem : RAGSource.mk (jsSubstrEllipsis "c1")
      (jsOr ((none : Option RecordMeta).map RecordMeta.fileName) "未知文件")
      (jsOr ((none : Option RecordMeta).map RecordMeta.fileType) "unknown")
      (((jsRound ((1 : ℚ) * 100) : ℤ) : ℚ) / 100)
      ∈ (askQuestion (α := ℚ)
        (fun _ _ => QueryResultT.mk true (some [QMatch.mk "m1" 1 none "c1"]) none)
        (fun _ _ => AIResponse.mk true (some "grounded answer") none "GPT-4o Mini")
        "q" "gpt" (AskOptions.mk none (some 0) none)).sources.getD [] := by
    rw [h]
    exact List.mem_singleton_self _
  exact ⟨hmem, (C5_relevance_filter_soundness ℚ
    (fun _ _ => QueryResultT.mk true (some [QMatch.mk "m1" 1 none "c1"]) none)
    (fun _ _ => AIResponse.mk true (some "grounded answer") none "GPT-4o Mini")
    "q" "gpt" (AskOptions.mk none (some 0) none)).1 _ hmem⟩

/-! ## Claim C9 -/

theorem generateMockEmbedding_length (t : String) :
    (generateMockEmbedding t).length = 1536 := by
  simp only [generateMockEmbedding, List.length_map, List.length_range]

theorem filterMap_some_eq_map {β γ : Type} (g : β → γ) (l : List β) :
    (l.filterMap fun b => some (g b)) = l.map g := by
  induction l with
  | nil => rfl
  | cons a l ih => simp [List.filterMap_cons, ih]

/-- With the local mock embedding — which never fails and always has 1536
entries — `storeDocumentLocal` stores every chunk and reports full success
whenever the chunker returns at least one chunk. -/
theorem storeDocumentLocal_mock_success (now fileId fileName fileType content : String)
    (store : List (VectorRecord ℝ))
    (h : (splitTextIntoChunks content.toList 1000).length ≠ 0) :
    (storeDocumentLocal generateMockEmbedding now store fileId fileName fileType
        content).2
      = StoreResult.mk true
          (some (splitTextIntoChunks content.toList 1000).length) none := by
  simp only [storeDocumentLocal]
  have hfun : (fun ic : ℕ × String =>
      if (generateMockEmbedding ic.2).length = 0 then none
      else some (VectorRecord.mk (fileId ++ "_chunk_" ++ toString ic.1)
        (generateMockEmbedding ic.2)
        (RecordMeta.mk ic.2 fileId fileName fileType ic.1 now)))
      = fun ic : ℕ × String =>
        some (VectorRecord.mk (fileId ++ "_chunk_" ++ toString ic.1)
          (generateMockEmbedding ic.2)
          (RecordMeta.mk ic.2 fileId fileName fileType ic.1 now)) := by
    funext ic
    rw [if_neg (by rw [generateMockEmbedding_length]; omega)]
  rw [hfun, filterMap_some_eq_map]
  simp only [List.length_map, List.enum_length]
  rw [if_neg h, if_neg (lt_irrefl _)]

/-- The local query path always returns success with a match list. -/
theorem queryDocumentsLocal_success {α : Type} [LinearOrder α]
    (embed : String → List α) (sim : List α → List α → α)
    (store : List (VectorRecord α)) (queryText : String) (topK : Nat)
    (filter : Option (List (String × FilterVal))) :
    (queryDocumentsLocal embed sim store queryText topK filter).success = true := by
  by_cases h : store.length = 0
  · simp only [queryDocumentsLocal]
    rw [if_pos h]
  · simp only [queryDocumentsLocal]
    rw [if_neg h]

/-- Claim C9 (amended): with no Pinecone credential (and regardless of any
other key), ingestion takes the local path and succeeds with no error
whenever the enhanced content yields at least one chunk; the retrieval used
by question answering is the local mock-embedding query, which always
succeeds (never a configuration error); and the whole `askQuestion`
succeeds with no error whenever the chat provider call succeeds. (The
original claim fails only in that a missing key of the selected chat model
itself still surfaces as a configuration error; see the counterexample.) -/
theorem C9_local_strategy_no_embedding_config_error
    (env : Env)
    (remote : String → Nat → Option (List (String × FilterVal)) → QueryResultT ℝ)
    (store : List (VectorRecord ℝ)) (chat : List AIMessage → String → AIResponse)
    (question model now fileId fileName fileType content : String) (meta : KBMeta)
    (options : AskOptions ℝ)
    (henv : env.pineconeApiKey = none)
    (hchunks :
      (splitTextIntoChunks (enhanceBridgeContent content meta).toList 1000).length ≠ 0)
    (hchat : ∀ msgs, (chat msgs model).success = true) :
    (addToKnowledgeBase generateMockEmbedding now store fileId fileName fileType
        content meta).2
      = StoreResult.mk true
          (some (splitTextIntoChunks
            (enhanceBridgeContent content meta).toList 1000).length) none ∧
    (∀ (topK : Nat) (filter : Option (List (String × FilterVal))),
      (queryDocuments remote generateMockEmbedding calculateCosineSimilarity env
        store question topK filter).success = true) ∧
    ((askQuestion (fun q k => queryDocuments remote generateMockEmbedding
        calculateCosineSimilarity env store q k none) chat question model
        options).success = true ∧
      (askQuestion (fun q k => queryDocuments remote generateMockEmbedding
        calculateCosineSimilarity env store q k none) chat question model
        options).error = none) := by
  have hpc : pineconeConfigured env = false := by
    rw [pineconeConfigured, henv]
    rfl
  have hq : ∀ (q : String) (topK : Nat)
      (filter : Option (List (String × FilterVal))),
      queryDocuments remote generateMockEmbedding calculateCosineSimilarity env
        store q topK filter
        = queryDocumentsLocal generateMockEmbedding calculateCosineSimilarity
            store q topK filter := by
    intro q topK filter
    simp only [queryDocuments]
    rw [if_neg (by rw [hpc]; exact Bool.false_ne_true)]
  refine ⟨storeDocumentLocal_mock_success now fileId fileName fileType
    (enhanceBridgeContent content meta) store hchunks,
    fun topK filter => by
      rw [hq]
      exact queryDocumentsLocal_success _ _ _ _ _ _, ?_⟩
  have hsucc : ((fun q k => queryDocuments remote generateMockEmbedding
      calculateCosineSimilarity env store q k none) question
        (options.maxSources.getD 5)).success = true := by
    show (queryDocuments remote generateMockEmbedding calculateCosineSimilarity env
      store question (options.maxSources.getD 5) none).success = true
    rw [hq]
    exact queryDocumentsLocal_success _ _ _ _ _ _
  by_cases h2 : (((fun q k => queryDocuments remote generateMockEmbedding
      calculateCosineSimilarity env store q k none) question
        (options.maxSources.getD 5)).matches'.getD []).filter
      (fun mtch => decide (options.minRelevanceScore.getD (7 / 10) ≤ mtch.score)) = []
  · rw [askQuestion_no_relevant _ chat question model options h2]
    simp only [fallbackToDirectAI]
    rw [if_pos (hchat _)]
    exact ⟨rfl, rfl⟩
  · rw [askQuestion_grounded_eq _ chat question model options _ hsucc rfl h2]
    simp only []
    rw [if_neg (by simp [hchat _])]
    exact ⟨rfl, rfl⟩

/-- Claim C9 counterexample: with NO credential at all configured (no
Pinecone, no OpenAI key), `askQuestion` with the default model `"gpt"` does
return a configuration error — the chat provider's missing-key message
`OpenAI API密钥未配置` — because the OpenAI key doubles as the gpt chat
credential, even though the embedding side ran purely locally. -/
theorem C9_counterexample_chat_config_error :
    askQuestion
        (fun q k => queryDocuments (fun _ _ _ => QueryResultT.mk false none none)
          generateMockEmbedding calculateCosineSimilarity
          (Env.mk none none none none none none) [] q k none)
        (aiChat (Env.mk none none none none none none)
          (fun _ _ => AIResponse.mk false none none "net"))
        "问题" "gpt" (AskOptions.mk none none none)
      = RAGResult.mk false none none (some "OpenAI API密钥未配置") none := by
  rfl

/-- Concrete instantiation of C9's hypotheses: empty environment, store and
history; content `"hello"` produces one chunk; an always-succeeding chat. -/
theorem C9_witness :
    (splitTextIntoChunks
        (enhanceBridgeContent "hello" (KBMeta.mk none [])).toList 1000).length ≠ 0 ∧
    (addToKnowledgeBase generateMockEmbedding "t0" ([] : List (VectorRecord ℝ))
        "f1" "a.pdf" "document" "hello" (KBMeta.mk none [])).2.success = true ∧
    (askQuestion (fun q k => queryDocuments
        (fun _ _ _ => QueryResultT.mk false none none) generateMockEmbedding
        calculateCosineSimilarity (Env.mk none none none none none none) [] q k none)
      (fun _ _ => AIResponse.mk true (some "ok") none "M") "q" "gpt"
      (AskOptions.mk none none none)).success = true := by
  have h := C9_local_strategy_no_embedding_config_error
    (Env.mk none none none none none none)
    (fun _ _ _ => QueryResultT.mk false none none) []
    (fun _ _ => AIResponse.mk true (some "ok") none "M")
    "q" "gpt" "t0" "f1" "a.pdf" "document" "hello" (KBMeta.mk none [])
    (AskOptions.mk none none none) rfl (by decide) (fun _ => rfl)
  exact ⟨by decide, by rw [h.1], h.2.2.1⟩

/-! ## Chunker lemmas (for claims C3 and C4) -/

theorem isContentChar_of_ws {c : Char} (h : isWS c = true) : isContentChar c = false := by
  simp [isContentChar, h]

theorem filter_dropWhile_ws {p : Char → Bool}
    (hp : ∀ c, isWS c = true → p c = false) (l : List Char) :
    (l.dropWhile isWS).filter p = l.filter p := by
  induction l with
  | nil => rfl
  | cons c rest ih =>
    by_cases h : isWS c = true
    · rw [List.dropWhile_cons_of_pos h, ih, List.filter_cons, if_neg (by simp [hp c h])]
    · rw [List.dropWhile_cons_of_neg h]

theorem filter_jsTrim {p : Char → Bool}
    (hp : ∀ c, isWS c = true → p c = false) (l : List Char) :
    (jsTrim l).filter p = l.filter p := by
  rw [jsTrim, List.filter_reverse, filter_dropWhile_ws hp, List.filter_reverse,
    filter_dropWhile_ws hp]
  exact List.reverse_reverse _

theorem jsTrim_length_le (l : List Char) : (jsTrim l).length ≤ l.length := by
  rw [jsTrim, List.length_reverse]
  calc ((l.dropWhile isWS).reverse.dropWhile isWS).length
      ≤ (l.dropWhile isWS).reverse.length := (List.dropWhile_sublist _).length_le
    _ = (l.dropWhile isWS).length := List.length_reverse _
    _ ≤ l.length := (List.dropWhile_sublist _).length_le

theorem splitSentences_ne_nil (p : List Char) : splitSentences p ≠ [] := by
  cases p with
  | nil => simp [splitSentences]
  | cons c rest =>
    rw [splitSentences]
    by_cases h : isSentenceDelim c = true
    · rw [if_pos h]
      simp
    · rw [if_neg h]
      cases splitSentences rest <;> simp

/-- The sentence splitter drops exactly the delimiter characters. -/
theorem flatten_splitSentences (p : List Char) :
    (splitSentences p).flatten = p.filter fun c => !isSentenceDelim c := by
  induction p with
  | nil => rfl
  | cons c rest ih =>
    rw [splitSentences]
    by_cases h : isSentenceDelim c = true
    · rw [if_pos h, List.filter_cons, if_neg (by simp [h])]
      simpa using ih
    · rw [if_neg h, List.filter_cons, if_pos (by simp [h])]
      rcases hs : splitSentences rest with _ | ⟨q, qs⟩
      · exact absurd hs (splitSentences_ne_nil rest)
      · rw [hs] at ih
        simpa using ih

theorem sepTail_spec {l r : List Char} (h : sepTail l = some r) :
    ∃ consumed, l = consumed ++ r ∧ (∀ c ∈ consumed, isWS c = true) ∧
      r.length < l.length := by
  induction l with
  | nil => simp [sepTail] at h
  | cons c rest ih =>
    rw [sepTail] at h
    by_cases hws : isWS c = true
    · rw [if_pos hws] at h
      rcases hst : sepTail rest with _ | r'
      · rw [hst] at h
        by_cases hnl : (c == '\n') = true
        · rw [if_pos hnl] at h
          obtain rfl : rest = r := by simpa using h
          exact ⟨[c], rfl, by simpa using hws, by simp⟩
        · rw [if_neg hnl] at h
          simp at h
      · rw [hst] at h
        obtain rfl : r' = r := by simpa using h
        obtain ⟨consumed, heq, hall, hlen⟩ := ih hst
        exact ⟨c :: consumed, by simp [heq], by
          intro x hx
          rcases List.mem_cons.mp hx with rfl | hx
          · exact hws
          · exact hall x hx, by simpa using Nat.lt_succ_of_lt hlen⟩
    · rw [if_neg hws] at h
      simp at h

theorem paraSep_spec {l r : List Char} (h : paraSep l = some r) :
    ∃ consumed, l = consumed ++ r ∧ (∀ c ∈ consumed, isWS c = true) ∧
      r.length < l.length := by
  cases l with
  | nil => simp [paraSep] at h
  | cons c rest =>
    rw [paraSep] at h
    by_cases hnl : (c == '\n') = true
    · rw [if_pos hnl] at h
      obtain ⟨consumed, hEq, hall, hlen⟩ := sepTail_spec h
      refine ⟨c :: consumed, by simp [hEq], ?_, by simpa using Nat.lt_succ_of_lt hlen⟩
      intro x hx
      rcases List.mem_cons.mp hx with h1 | hx
      · have hceq : c = '\n' := by simpa using hnl
        rw [h1, hceq]
        decide
      · exact hall x hx
    · rw [if_neg hnl] at h
      simp at h

theorem splitParasGo_ne_nil (fuel : Nat) (s : List Char) :
    splitParasGo fuel s ≠ [] := by
  cases fuel with
  | zero => simp [splitParasGo]
  | succ fuel =>
    cases s with
    | nil => simp [splitParasGo]
    | cons c rest =>
      rw [splitParasGo]
      cases paraSep (c :: rest) with
      | some r => simp
      | none =>
        cases splitParasGo fuel rest <;> simp

/-- The paragraph splitter loses only whitespace (the matched separators):
filtering by any whitespace-rejecting predicate commutes with it. -/
theorem filter_flatten_splitParasGo {p : Char → Bool}
    (hp : ∀ c, isWS c = true → p c = false) :
    ∀ (fuel : Nat) (s : List Char), s.length < fuel →
      (splitParasGo fuel s).flatten.filter p = s.filter p := by
  intro fuel
  induction fuel with
  | zero => intro s hs; omega
  | succ fuel ih =>
    intro s hs
    cases s with
    | nil => simp [splitParasGo]
    | cons c rest =>
      rw [splitParasGo]
      rcases hps : paraSep (c :: rest) with _ | r
      · rcases hgo : splitParasGo fuel rest with _ | ⟨q, qs⟩
        · exact absurd hgo (splitParasGo_ne_nil fuel rest)
        · have ihr := ih rest (by simpa using Nat.lt_of_succ_lt_succ hs)
          have hqr : List.filter p (q ++ qs.flatten) = List.filter p rest := by
            rw [List.filter_append]
            rw [hgo, List.flatten_cons, List.filter_append] at ihr
            exact ihr
          rw [List.flatten_cons, List.cons_append, List.filter_cons,
            List.filter_cons, hqr]
      · obtain ⟨consumed, hEq, hall, hlen⟩ := paraSep_spec hps
        have hconsumed : consumed.filter p = [] := by
          apply List.filter_eq_nil_iff.mpr
          intro a ha
          simp [hp a (hall a ha)]
        have ihr := ih r (by omega)
        simp only [List.flatten_cons, List.filter_append, List.filter_nil,
          List.nil_append]
        rw [ihr, hEq, List.filter_append, hconsumed, List.nil_append]

theorem isContentChar_of_delim {c : Char} (h : isSentenceDelim c = true) :
    isContentChar c = false := by
  simp [isContentChar, h]

theorem filter_filter_of_imp {p q : Char → Bool}
    (h : ∀ c, p c = true → q c = true) (l : List Char) :
    (l.filter q).filter p = l.filter p := by
  induction l with
  | nil => rfl
  | cons c rest ih =>
    rw [List.filter_cons]
    by_cases hq : q c = true
    · rw [if_pos hq, List.filter_cons, List.filter_cons, ih]
    · rw [if_neg hq, List.filter_cons, if_neg ?_, ih]
      intro hpc
      exact hq (h c hpc)

theorem flatten_map_filter (l : List (List Char)) (p : Char → Bool) :
    (l.map (List.filter p)).flatten = l.flatten.filter p := by
  induction l with
  | nil => rfl
  | cons a l ih =>
    rw [List.map_cons, List.flatten_cons, List.flatten_cons, List.filter_append, ih]

/-- The content characters of one paragraph survive sentence splitting. -/
theorem splitSentences_content (par : List Char) :
    ((splitSentences par).map (List.filter isContentChar)).flatten
      = par.filter isContentChar := by
  rw [flatten_map_filter, flatten_splitSentences]
  exact filter_filter_of_imp
    (fun c hc => by
      rcases hdelim : isSentenceDelim c with _ | _
      · rfl
      · rw [isContentChar_of_delim hdelim] at hc
        cases hc) par

/-- Invariant of the inner sentence loop: the content characters of pushed
chunks plus the pending `sentenceChunk` accumulate exactly the content of
the initial state plus the processed sentences, in order. -/
theorem sentenceFold_content (maxChunkSize : Nat) :
    ∀ (ss : List (List Char)) (st : List (List Char) × List Char),
      ((ss.foldl (sentenceStep maxChunkSize) st).1.map
          (List.filter isContentChar)).flatten
        ++ ((ss.foldl (sentenceStep maxChunkSize) st).2.filter isContentChar)
      = (st.1.map (List.filter isContentChar)).flatten
        ++ st.2.filter isContentChar
        ++ (ss.map (List.filter isContentChar)).flatten := by
  intro ss
  induction ss with
  | nil => intro st; simp
  | cons s ss ih =>
    intro st
    rw [List.foldl_cons]
    simp only [sentenceStep]
    by_cases h : st.2.length + s.length ≤ maxChunkSize
    · rw [if_pos h, ih]
      simp [List.filter_append, List.append_assoc]
    · rw [if_neg h]
      by_cases hsc : st.2 ≠ []
      · rw [if_pos hsc, ih]
        simp only [List.map_append, List.flatten_append, List.map_cons,
          List.map_nil, List.flatten_cons, List.flatten_nil, List.append_nil,
          List.map_cons]
        rw [filter_jsTrim (fun c hc => isContentChar_of_ws hc)]
        simp [List.append_assoc]
      · rw [if_neg hsc]
        have hsc2 : st.2 = [] := not_ne_iff.mp hsc
        rw [ih, hsc2]
        simp [List.append_assoc]

/-- Invariant of the outer paragraph loop: pushed chunks plus the pending
`currentChunk` accumulate exactly the content of the initial state plus the
processed paragraphs, in order. -/
theorem paragraphFold_content (maxChunkSize : Nat) :
    ∀ (ps : List (List Char)) (st : List (List Char) × List Char),
      ((ps.foldl (paragraphStep maxChunkSize) st).1.map
          (List.filter isContentChar)).flatten
        ++ ((ps.foldl (paragraphStep maxChunkSize) st).2.filter isContentChar)
      = (st.1.map (List.filter isContentChar)).flatten
        ++ st.2.filter isContentChar
        ++ (ps.map (List.filter isContentChar)).flatten := by
  intro ps
  induction ps with
  | nil => intro st; simp
  | cons par ps ih =>
    intro st
    rw [List.foldl_cons]
    simp only [paragraphStep]
    by_cases h : st.2.length + par.length ≤ maxChunkSize
    · rw [if_pos h, ih]
      by_cases hsc : st.2 ≠ []
      · rw [if_pos hsc]
        have hnl : isContentChar '\n' = false := rfl
        simp [List.filter_append, List.filter_cons, hnl, List.append_assoc]
      · rw [if_neg hsc]
        simp [List.filter_append, List.append_assoc]
    · rw [if_neg h]
      by_cases hsc : st.2 ≠ []
      · rw [if_pos hsc, ih]
        simp only [List.map_append, List.flatten_append, List.map_cons,
          List.map_nil, List.flatten_cons, List.flatten_nil, List.append_nil]
        rw [filter_jsTrim (fun c hc => isContentChar_of_ws hc)]
        simp [List.append_assoc]
      · rw [if_neg hsc]
        have hsc2 : st.2 = [] := not_ne_iff.mp hsc
        rw [ih, sentenceFold_content, splitSentences_content, hsc2]
        simp [List.append_assoc]

theorem flatten_filter_pos_chunks (l : List (List Char)) :
    ((l.filter fun chunk => chunk.length > 0).map (List.filter isContentChar)).flatten
      = (l.map (List.filter isContentChar)).flatten := by
  induction l with
  | nil => rfl
  | cons a l ih =>
    rw [List.filter_cons]
    by_cases h : a.length > 0
    · rw [if_pos (decide_eq_true h), List.map_cons, List.map_cons,
        List.flatten_cons, List.flatten_cons, ih]
    · rw [if_neg (by simpa using h)]
      have ha : a = [] := List.length_eq_zero.mp (by omega)
      rw [List.map_cons, List.flatten_cons, ha, ih]
      rfl

/-! ## Claim C4 -/

/-- Claim C4 counterexample: the sentence-splitting path DROPS the sentence
delimiter characters (`paragraph.split(/[。！？.!?]/)` discards the matched
`.`), so concatenating the chunks of `"ab.cd.ef"` at `maxChunkSize = 5`
yields non-whitespace content `"abcdef"`, not the original `"ab.cd.ef"`:
non-whitespace content characters are lost. -/
theorem C4_counterexample_lost_delimiters :
    splitTextIntoChunks ("ab.cd.ef").toList 5
      = ["abcd".toList, "ef".toList] ∧
    (splitTextIntoChunks ("ab.cd.ef").toList 5).flatten.filter isNonWS
      ≠ ("ab.cd.ef").toList.filter isNonWS := by
  constructor <;> decide

/-- Claim C4 (amended): concatenating all chunks in order reproduces the
original text's content modulo chunk-boundary whitespace AND modulo the
sentence-delimiter characters `。！？.!?`, which the splitter's
sentence-division step removes: restricted to characters that are neither
whitespace nor sentence delimiters, the concatenation equals the original
text — no such character is lost, duplicated, or reordered. -/
theorem C4_amended_chunk_reconstruction (text : List Char) (maxChunkSize : Nat) :
    (splitTextIntoChunks text maxChunkSize).flatten.filter isContentChar
      = text.filter isContentChar := by
  have hparas : ((splitParas text).map (List.filter isContentChar)).flatten
      = text.filter isContentChar := by
    rw [flatten_map_filter]
    exact filter_flatten_splitParasGo (fun c hc => isContentChar_of_ws hc)
      (text.length + 1) text (Nat.lt_succ_self _)
  have hfold := paragraphFold_content maxChunkSize (splitParas text) ([], [])
  simp only [List.map_nil, List.flatten_nil, List.filter_nil, List.nil_append]
    at hfold
  rw [← flatten_map_filter]
  simp only [splitTextIntoChunks]
  rw [flatten_filter_pos_chunks]
  by_cases h : ((splitParas text).foldl (paragraphStep maxChunkSize) ([], [])).2 ≠ []
  · rw [if_pos h, List.map_append, List.flatten_append, List.map_cons,
      List.map_nil, List.flatten_cons, List.flatten_nil, List.append_nil]
    rw [filter_jsTrim (fun c hc => isContentChar_of_ws hc)]
    rw [hfold, hparas]
  · rw [if_neg h]
    have h2 : ((splitParas text).foldl (paragraphStep maxChunkSize) ([], [])).2
        = [] := not_ne_iff.mp h
    rw [h2, List.filter_nil, List.append_nil] at hfold
    rw [hfold, hparas]

/-! ## Claim C3 -/

/-- Invariant of the inner sentence loop for the size bound: pushed chunks
stay in the class `Q` (closed under small chunks and under trimmed
sentences of the paragraph), and the pending `sentenceChunk` is either
within `maxChunkSize` or a whole sentence of the paragraph. -/
theorem sentenceFold_good (maxChunkSize : Nat) (par : List Char)
    (Q : List Char → Prop)
    (hQlen : ∀ c : List Char, c.length ≤ maxChunkSize + 2 → Q c)
    (hQsent : ∀ s ∈ splitSentences par, Q (jsTrim s)) :
    ∀ ss : List (List Char), (∀ s ∈ ss, s ∈ splitSentences par) →
    ∀ st : List (List Char) × List Char, (∀ c ∈ st.1, Q c) →
      (st.2.length ≤ maxChunkSize ∨ st.2 ∈ splitSentences par) →
      (∀ c ∈ (ss.foldl (sentenceStep maxChunkSize) st).1, Q c) ∧
        ((ss.foldl (sentenceStep maxChunkSize) st).2.length ≤ maxChunkSize
          ∨ (ss.foldl (sentenceStep maxChunkSize) st).2 ∈ splitSentences par) := by
  intro ss
  induction ss with
  | nil => intro _ st h1 h2; exact ⟨h1, h2⟩
  | cons s ss ih =>
    intro hss st h1 h2
    rw [List.foldl_cons]
    simp only [sentenceStep]
    by_cases h : st.2.length + s.length ≤ maxChunkSize
    · rw [if_pos h]
      refine ih (fun x hx => hss x (List.mem_cons_of_mem _ hx)) _ h1 (Or.inl ?_)
      rw [List.length_append]
      omega
    · rw [if_neg h]
      refine ih (fun x hx => hss x (List.mem_cons_of_mem _ hx)) _ ?_
        (Or.inr (hss s (List.mem_cons_self _ _)))
      by_cases hsc : st.2 ≠ []
      · rw [if_pos hsc]
        intro c hc
        rcases List.mem_append.mp hc with hc | hc
        · exact h1 c hc
        · obtain rfl : c = jsTrim st.2 := by simpa using hc
          rcases h2 with h2 | h2
          · exact hQlen _ (le_trans (jsTrim_length_le _) (by omega))
          · exact hQsent _ h2
      · rw [if_neg hsc]
        exact h1

/-- Invariant of the outer paragraph loop for the size bound: every pushed
chunk has length at most `maxChunkSize + 2`, or is the trim of a whole
paragraph, or the trim of a single sentence of a paragraph; the pending
`currentChunk` is small, a whole paragraph, or a whole sentence. -/
theorem paragraphFold_good (maxChunkSize : Nat) (PS : List (List Char)) :
    ∀ ps : List (List Char), (∀ par ∈ ps, par ∈ PS) →
    ∀ st : List (List Char) × List Char,
      (∀ c ∈ st.1, c.length ≤ maxChunkSize + 2 ∨ ∃ par ∈ PS,
        (c = jsTrim par ∨ ∃ s ∈ splitSentences par, c = jsTrim s)) →
      (st.2.length ≤ maxChunkSize + 2 ∨ ∃ par ∈ PS,
        (st.2 = par ∨ st.2 ∈ splitSentences par)) →
      (∀ c ∈ (ps.foldl (paragraphStep maxChunkSize) st).1,
        c.length ≤ maxChunkSize + 2 ∨ ∃ par ∈ PS,
          (c = jsTrim par ∨ ∃ s ∈ splitSentences par, c = jsTrim s)) ∧
      ((ps.foldl (paragraphStep maxChunkSize) st).2.length ≤ maxChunkSize + 2
        ∨ ∃ par ∈ PS, ((ps.foldl (paragraphStep maxChunkSize) st).2 = par
          ∨ (ps.foldl (paragraphStep maxChunkSize) st).2 ∈ splitSentences par)) := by
  intro ps
  induction ps with
  | nil => intro _ st h1 h2; exact ⟨h1, h2⟩
  | cons par ps ih =>
    intro hps st h1 h2
    have hpar : par ∈ PS := hps par (List.mem_cons_self _ _)
    have hps' : ∀ x ∈ ps, x ∈ PS := fun x hx => hps x (List.mem_cons_of_mem _ hx)
    rw [List.foldl_cons]
    simp only [paragraphStep]
    by_cases h : st.2.length + par.length ≤ maxChunkSize
    · rw [if_pos h]
      refine ih hps' _ h1 (Or.inl ?_)
      have hsep : (if st.2 ≠ [] then ['\n', '\n'] else []).length ≤ 2 := by
        by_cases hsc : st.2 ≠ [] <;> simp [hsc]
      rw [List.length_append, List.length_append]
      omega
    · rw [if_neg h]
      by_cases hsc : st.2 ≠ []
      · rw [if_pos hsc]
        refine ih hps' _ ?_ (Or.inr ⟨par, hpar, Or.inl rfl⟩)
        intro c hc
        rcases List.mem_append.mp hc with hc | hc
        · exact h1 c hc
        · obtain rfl : c = jsTrim st.2 := by simpa using hc
          rcases h2 with h2 | ⟨par', hpar', h2 | h2⟩
          · exact Or.inl (le_trans (jsTrim_length_le _) h2)
          · exact Or.inr ⟨par', hpar', Or.inl (by rw [h2])⟩
          · exact Or.inr ⟨par', hpar', Or.inr ⟨st.2, h2, rfl⟩⟩
      · rw [if_neg hsc]
        have hQ := sentenceFold_good maxChunkSize par
          (fun c => c.length ≤ maxChunkSize + 2 ∨ ∃ p ∈ PS,
            (c = jsTrim p ∨ ∃ s ∈ splitSentences p, c = jsTrim s))
          (fun c hc => Or.inl hc)
          (fun s hs => Or.inr ⟨par, hpar, Or.inr ⟨s, hs, rfl⟩⟩)
          (splitSentences par) (fun s hs => hs)
          (st.1, []) h1 (Or.inl (by simp))
        refine ih hps' _ hQ.1 ?_
        rcases hQ.2 with hq | hq
        · exact Or.inl (by omega)
        · exact Or.inr ⟨par, hpar, Or.inr hq⟩

/-- Claim C3 counterexample: at `maxChunkSize = 10` the input
`"aa.aa\n\nbb.bb\n\ncccc.cccc.cccc"` produces a merged chunk of length 12
(the `'\n\n'` join separator is not counted by the size check) and a whole
unsplit paragraph of length 14; both exceed the limit and both contain
sentence delimiters, so neither is a single atomic over-long sentence. -/
theorem C3_counterexample_chunk_bound :
    splitTextIntoChunks ("aa.aa\n\nbb.bb\n\ncccc.cccc.cccc").toList 10
      = ["aa.aa\n\nbb.bb".toList, "cccc.cccc.cccc".toList] ∧
    ("aa.aa\n\nbb.bb".toList.length = 12 ∧
      "aa.aa\n\nbb.bb".toList.any isSentenceDelim = true) ∧
    ("cccc.cccc.cccc".toList.length = 14 ∧
      "cccc.cccc.cccc".toList.any isSentenceDelim = true) := by
  refine ⟨?_, ⟨?_, ?_⟩, ?_, ?_⟩ <;> decide

/-- Claim C3 (amended): every chunk produced by `splitTextIntoChunks` either
has length at most `maxChunkSize + 2` (the slack being the `'\n\n'` join
separator excluded from the size check), or is the trimmed whole of a
single input paragraph (an over-long paragraph carried into `currentChunk`
is emitted untruncated and alone), or is the trimmed whole of a single
atomic sentence of a paragraph (emitted untruncated and alone). -/
theorem C3_amended_chunk_bound (text : List Char) (maxChunkSize : Nat)
    (c : List Char) (hc : c ∈ splitTextIntoChunks text maxChunkSize) :
    c.length ≤ maxChunkSize + 2 ∨ ∃ par ∈ splitParas text,
      (c = jsTrim par ∨ ∃ s ∈ splitSentences par, c = jsTrim s) := by
  simp only [splitTextIntoChunks] at hc
  have hc2 := (List.mem_filter.mp hc).1
  have hfold := paragraphFold_good maxChunkSize (splitParas text)
    (splitParas text) (fun _ h => h) ([], []) (by simp) (Or.inl (by simp))
  by_cases h : ((splitParas text).foldl (paragraphStep maxChunkSize) ([], [])).2 ≠ []
  · rw [if_pos h] at hc2
    rcases List.mem_append.mp hc2 with hc2 | hc2
    · exact hfold.1 c hc2
    · obtain rfl : c = jsTrim
          ((splitParas text).foldl (paragraphStep maxChunkSize) ([], [])).2 := by
        simpa using hc2
      rcases hfold.2 with h2 | ⟨par', hpar', h2 | h2⟩
      · exact Or.inl (le_trans (jsTrim_length_le _) h2)
      · exact Or.inr ⟨par', hpar', Or.inl (by rw [h2])⟩
      · exact Or.inr ⟨par', hpar', Or.inr ⟨_, h2, rfl⟩⟩
  · rw [if_neg h] at hc2
    exact hfold.1 c hc2

/-- Concrete instantiation of C3's hypothesis: the single chunk of `"ab"`
at `maxChunkSize = 5` is within the amended bound. -/
theorem C3_witness :
    ("ab".toList ∈ splitTextIntoChunks "ab".toList 5) ∧
    ("ab".toList.length ≤ 5 + 2 ∨ ∃ par ∈ splitParas "ab".toList,
      ("ab".toList = jsTrim par ∨
        ∃ s ∈ splitSentences par, "ab".toList = jsTrim s)) :=
  ⟨by decide, C3_amended_chunk_bound "ab".toList 5 "ab".toList (by decide)⟩

end BridgeAgent
